import Mathlib

/-!
Verification of the format-dispatching loader of `mnelab/io/readers.py`:
registry construction (`supported`, `suggested`, `readers`), the suffix
resolution loop of `read_raw`, and the two handlers implemented in the module
itself (`_read_unsupported` and `read_numpy`).  External parsers
(`mne.io.read_raw_edf`, ...) are opaque: dispatching to one is recorded as an
opaque call.  Python strings are modelled as `List Char` (the ASCII fragment,
which covers every registry key and all file names the spec discusses).
-/

namespace Mnelab

/-- Models Python `str.lower` on one character: `A`..`Z` (codes 65..90) map 32
codes up, everything else is fixed.  This is the ASCII fragment of `str.lower`,
numerically the same as `Char.toLower`. -/
def pyCharLower (c : Char) : Char :=
  if 65 ≤ c.toNat ∧ c.toNat ≤ 90 then Char.ofNat (c.toNat + 32) else c

/-- Models Python `str.lower` over a whole string. -/
def pyLower (l : List Char) : List Char := l.map pyCharLower

/-- Models Python `str.split(sep)` for a one-character separator: the (always
nonempty) list of separator-free groups, keeping empty groups, e.g. splitting
`"a.b"` on `'.'` gives `["a", "b"]` and `""` gives `[""]`. -/
def splitOnChar (sep : Char) : List Char → List (List Char)
  | [] => [[]]
  | c :: rest =>
    match splitOnChar sep rest with
    | [] => [[]]
    | g :: gs => if c = sep then [] :: g :: gs else (c :: g) :: gs

/-- Models `Path(fname).name` for POSIX paths without trailing slashes or
special components: the text after the last `/`. -/
def pathName (l : List Char) : List Char :=
  (splitOnChar '/' l).getLastD []

/-- Models `Path(fname).suffixes`: `[]` when the name ends in a dot, otherwise
`pathlib`'s list comprehension over `name.lstrip('.').split('.')[1:]`, each
group prefixed with its dot; e.g. `"data.fif.gz"` gives `[".fif", ".gz"]`. -/
def pySuffixes (l : List Char) : List (List Char) :=
  let name := pathName l
  if name.getLast? = some '.' then []
  else ((splitOnChar '.' (name.dropWhile (fun c => c = '.'))).tail).map (fun s => '.' :: s)

/-- A registry entry's value: either one of the real reader callables
(identified by its source name; all external to the module except
`read_numpy`), or the reporter `partial(_read_unsupported, suggest=s)` for a
recognised-but-unsupported format. -/
inductive Handler where
  | reader (name : String)
  | unsupported (suggest : Option String)
deriving DecidableEq

/-- Python `dict` lookup over an insertion-ordered association list where a
later binding for a key overwrites an earlier one (as dict construction and
`\x7b**supported, **suggested\x7d` merging do): the last matching entry wins. -/
def dlookup {β : Type} (d : List (String × β)) (k : String) : Option β :=
  match d with
  | [] => none
  | (k0, v0) :: rest =>
    match dlookup rest k with
    | some v => some v
    | none => if k0 = k then some v0 else none

/-- The keys of an association-list dict, in insertion order. -/
def keys {β : Type} (d : List (String × β)) : List String := d.map Prod.fst

/-- Models `ext.count(".")` on a registry key. -/
def countDots (s : String) : Nat := s.data.countP (fun c => c = '.')

/-- Models `maxsuffixes = max([ext.count(".") for ext in supported])`.  The
fold returns `0` on an empty registry, where Python's `max` would raise; the
actual registry is never empty. -/
def maxsuffixes (sup : List (String × Handler)) : Nat :=
  (sup.map (fun p => countDots p.1)).foldr max 0

/-- The suffix lengths tried by `for i in range(-maxsuffixes, 0)`, longest
first: `countdown m = [m, m-1, ..., 1]`. -/
def countdown : Nat → List Nat
  | 0 => []
  | n + 1 => (n + 1) :: countdown n

/-- The candidate extension tried for length `k`:
`ext = "".join(suffixes[i:]).lower()` with `i = -k` (a Python negative slice
clips at the front, so `k` larger than the list yields the whole chain). -/
def extCandidate (sufs : List (List Char)) (k : Nat) : String :=
  String.mk (pyLower (List.flatten (sufs.drop (sufs.length - k))))

/-- The body of the resolution loop: for each length in `ks` form the
candidate and, at the first one with `ext in readers.keys()`, return that key
together with `readers[ext]`. -/
def dispatchLoop (rdrs : List (String × Handler)) (sufs : List (List Char)) :
    List Nat → Option (String × Handler)
  | [] => none
  | k :: ks =>
    match dlookup rdrs (extCandidate sufs k) with
    | some h => some (extCandidate sufs k, h)
    | none => dispatchLoop rdrs sufs ks

/-- The quote character used by Python `repr` of a string. -/
def quoteChar : Char := Char.ofNat 39

/-- The comma-separated, quoted element list of a Python `repr` of a list of
strings. -/
def pyReprAux : List (List Char) → String
  | [] => ""
  | [s] => String.singleton quoteChar ++ String.mk s ++ String.singleton quoteChar
  | s :: t :: rest =>
    String.singleton quoteChar ++ String.mk s ++ String.singleton quoteChar ++ ", " ++
      pyReprAux (t :: rest)

/-- Python `repr` of a list of strings, as interpolated by
`f"Unknown file type ..."` in `read_raw`. -/
def pyReprList (l : List (List Char)) : String := "[" ++ pyReprAux l ++ "]"

/-- The `ValueError` message `read_raw` raises when no extension matched. -/
def unknownMsg (sufs : List (List Char)) : String :=
  "Unknown file type " ++ pyReprList sufs ++ "."

/-- Result of `read_raw` up to (and excluding) running the chosen handler:
either the call `readers[ext](fname, *args, **kwargs)` about to be made, or
the unknown-file-type `ValueError`. -/
inductive ReadResult (α : Type) where
  | call (h : Handler) (fname : String) (args : List α) (kwargs : List (String × α))
  | error (msg : String)
deriving DecidableEq

/-- The resolution part of `read_raw`, parametrised by the two sub-registries
exactly as the source uses them: the length bound `maxsuffixes` is computed
from `sup` alone, while every candidate lookup hits the merged registry
`sup ++ sug` (under `dlookup`, later entries override, as Python merging
does). -/
def resolveSuffix (sup sug : List (String × Handler)) (fname : String) :
    Option (String × Handler) :=
  dispatchLoop (sup ++ sug) (pySuffixes fname.data) (countdown (maxsuffixes sup))

/-- Models `read_raw(fname, *args, **kwargs)`, parametrised by the registries:
resolve the suffix and either dispatch to the found handler or raise the
unknown-file-type `ValueError`. -/
def read_raw_gen {α : Type} (sup sug : List (String × Handler)) (fname : String)
    (args : List α) (kwargs : List (String × α)) : ReadResult α :=
  match resolveSuffix sup sug fname with
  | some (_, h) => ReadResult.call h fname args kwargs
  | none => ReadResult.error (unknownMsg (pySuffixes fname.data))

/-- The module-level `supported` dict, as a function of the capability flag
`have["pyxdf"]` checked at import time. -/
def supported (have_pyxdf : Bool) : List (String × Handler) :=
  [(".edf", Handler.reader "mne.io.read_raw_edf"),
   (".bdf", Handler.reader "mne.io.read_raw_bdf"),
   (".gdf", Handler.reader "mne.io.read_raw_gdf"),
   (".vhdr", Handler.reader "mne.io.read_raw_brainvision"),
   (".fif", Handler.reader "mne.io.read_raw_fif"),
   (".fif.gz", Handler.reader "mne.io.read_raw_fif"),
   (".set", Handler.reader "mne.io.read_raw_eeglab"),
   (".cnt", Handler.reader "mne.io.read_raw_cnt"),
   (".mff", Handler.reader "mne.io.read_raw_egi"),
   (".nxe", Handler.reader "mne.io.read_raw_eximia"),
   (".hdr", Handler.reader "mne.io.read_raw_nirx"),
   (".npy", Handler.reader "read_numpy")] ++
  (if have_pyxdf then
    [(".xdf", Handler.reader "read_raw_xdf"),
     (".xdfz", Handler.reader "read_raw_xdf"),
     (".xdf.gz", Handler.reader "read_raw_xdf")]
   else [])

/-- The module-level `suggested` dict of known-but-unsupported formats. -/
def suggested : List (String × Handler) :=
  [(".vmrk", Handler.unsupported (some ".vhdr")),
   (".eeg", Handler.unsupported (some ".vhdr"))]

/-- The merged registry `readers`, i.e. the Python dict built by unpacking
`supported` and then `suggested` (so under `dlookup` a `suggested` binding
would override a `supported` one for the same key). -/
def readers (have_pyxdf : Bool) : List (String × Handler) :=
  supported have_pyxdf ++ suggested

/-- `read_raw` against the module's own registries. -/
def read_raw {α : Type} (have_pyxdf : Bool) (fname : String) (args : List α)
    (kwargs : List (String × α)) : ReadResult α :=
  read_raw_gen (supported have_pyxdf) suggested fname args kwargs

/-- The message built by `_read_unsupported`: the joined (case-preserved)
suffix chain of the file name, plus the recommendation when a `suggest` value
is present. -/
def unsupportedMsg (fname : String) (suggest : Option String) : String :=
  let ext := String.mk (List.flatten (pySuffixes fname.data))
  let msg := "Unsupported file type (" ++ ext ++ ")."
  match suggest with
  | none => msg
  | some s => msg ++ " Try reading a " ++ s ++ " file instead."

/-- Observable outcome of running the handler `read_raw` dispatched to: an
external reader is recorded as an opaque call; `_read_unsupported` raises a
`ValueError`; a Python signature mismatch raises a `TypeError`. -/
inductive Outcome (α : Type) where
  | readerCall (name : String) (fname : String) (args : List α) (kwargs : List (String × α))
  | valueError (msg : String)
  | typeError (msg : String)
deriving DecidableEq

/-- Models calling `partial(_read_unsupported, suggest=s0)` — or, with
`s0 = none`, `_read_unsupported` itself — as `f(fname, *args, **kwargs)`.
`functools.partial` merges its stored keywords with the caller's, the caller
winning; `_read_unsupported` declares only `fname` plus a `**kwargs`
catch-all, so any extra positional argument, or a `fname` keyword colliding
with the positional file name, raises a `TypeError`; otherwise the body runs
and raises the `ValueError` built from `kwargs.get("suggest")`. -/
def call_read_unsupported {α : Type} [ToString α] (s0 : Option String)
    (fname : String) (args : List α) (kwargs : List (String × α)) : Outcome α :=
  if args.isEmpty then
    if (dlookup kwargs "fname").isSome then
      Outcome.typeError ("_read_unsupported() got multiple values for argument " ++
        String.singleton quoteChar ++ "fname" ++ String.singleton quoteChar)
    else
      let s : Option String :=
        match dlookup kwargs "suggest" with
        | some v => some (toString v)
        | none => s0
      Outcome.valueError (unsupportedMsg fname s)
  else
    Outcome.typeError ("_read_unsupported() takes 1 positional argument but " ++
      toString (args.length + 1) ++ " were given")

/-- Run the handler the dispatch selected.  Real readers are external, so the
call is recorded opaquely (`read_numpy`, dispatched the same way, is modelled
on its own below); the unsupported reporter runs `_read_unsupported`. -/
def runHandler {α : Type} [ToString α] (h : Handler) (fname : String)
    (args : List α) (kwargs : List (String × α)) : Outcome α :=
  match h with
  | Handler.reader n => Outcome.readerCall n fname args kwargs
  | Handler.unsupported s => call_read_unsupported s fname args kwargs

/-- `read_raw` together with the observable outcome of the handler it
dispatched to (the unknown-file-type failure is a `ValueError` too). -/
def read_raw_run {α : Type} [ToString α] (have_pyxdf : Bool) (fname : String)
    (args : List α) (kwargs : List (String × α)) : Outcome α :=
  match read_raw have_pyxdf fname args kwargs with
  | ReadResult.call h f a k => runHandler h f a k
  | ReadResult.error msg => Outcome.valueError msg

/-- The shape of the numpy array returned by `np.load`; `ndim` is the length
of the shape. -/
structure PyArray where
  shape : List Nat
deriving DecidableEq

/-- The fields of the `mne.io.Raw` object `read_numpy` builds:
`mne.create_info(npy.shape[0], sfreq)` fixes the channel count and the
sampling rate, and `raw._filenames = [fname]` the declared source path. -/
structure RawSignal where
  nchan : Nat
  sfreq : ℚ
  filenames : List String
deriving DecidableEq

/-- Models `read_numpy(fname, sfreq, *args, **kwargs)`, with `np.load`
supplied as an opaque function from file names to arrays: raise the shape
`ValueError` unless the loaded array is two-dimensional, else build the Raw
object from its row count and the supplied sampling frequency. -/
def read_numpy {α : Type} (load : String → PyArray) (fname : String) (sfreq : ℚ)
    (_args : List α) (_kwargs : List (String × α)) : Except String RawSignal :=
  let npy := load fname
  if npy.shape.length ≠ 2 then
    Except.error ("Array must have two dimensions (got " ++
      toString npy.shape.length ++ ").")
  else
    Except.ok ⟨npy.shape.headD 0, sfreq, [fname]⟩

/-! ### Helper lemmas: the resolution loop and dict lookup -/

theorem mem_countdown {j m : Nat} : j ∈ countdown m ↔ 1 ≤ j ∧ j ≤ m := by
  induction m with
  | zero =>
    simp only [countdown, List.not_mem_nil, false_iff]
    omega
  | succ n ih =>
    simp only [countdown, List.mem_cons, ih]
    omega

theorem dispatchLoop_eq_none {rdrs : List (String × Handler)} {sufs : List (List Char)}
    {ks : List Nat}
    (h : ∀ k ∈ ks, dlookup rdrs (extCandidate sufs k) = none) :
    dispatchLoop rdrs sufs ks = none := by
  induction ks with
  | nil => rfl
  | cons k ks ih =>
    have hk := h k (List.mem_cons_self k ks)
    simp only [dispatchLoop, hk]
    exact ih (fun j hj => h j (List.mem_cons_of_mem _ hj))

theorem dispatchLoop_finds {rdrs : List (String × Handler)} {sufs : List (List Char)}
    {k : Nat} {h : Handler} (m : Nat) :
    k ∈ countdown m →
    dlookup rdrs (extCandidate sufs k) = some h →
    (∀ j ∈ countdown m, k < j → dlookup rdrs (extCandidate sufs j) = none) →
    dispatchLoop rdrs sufs (countdown m) = some (extCandidate sufs k, h) := by
  induction m with
  | zero => intro hk _ _; simp [countdown] at hk
  | succ n ih =>
    intro hk hfound habove
    by_cases hke : k = n + 1
    · subst hke
      simp only [countdown, dispatchLoop, hfound]
    · have hkb := mem_countdown.mp hk
      have hkn : k ∈ countdown n := mem_countdown.mpr ⟨hkb.1, by omega⟩
      have htop : dlookup rdrs (extCandidate sufs (n + 1)) = none := by
        apply habove (n + 1) (mem_countdown.mpr ⟨by omega, Nat.le_refl _⟩)
        omega
      simp only [countdown, dispatchLoop, htop]
      exact ih hkn hfound
        (fun j hj hlt =>
          habove j (mem_countdown.mpr ⟨(mem_countdown.mp hj).1, by
            have := (mem_countdown.mp hj).2; omega⟩) hlt)

theorem dlookup_append_none {β : Type} {a b : List (String × β)} {k : String}
    (hb : dlookup b k = none) : dlookup (a ++ b) k = dlookup a k := by
  induction a with
  | nil => simpa using hb
  | cons p a ih =>
    obtain ⟨k0, v0⟩ := p
    simp only [List.cons_append, dlookup, List.append_eq, ih]

theorem mem_keys_of_dlookup {β : Type} {d : List (String × β)} {k : String} {v : β}
    (h : dlookup d k = some v) : k ∈ keys d := by
  induction d generalizing v with
  | nil => simp [dlookup] at h
  | cons p d ih =>
    obtain ⟨k0, v0⟩ := p
    rw [dlookup] at h
    cases hd : dlookup d k with
    | some w =>
      rw [hd] at h
      exact List.mem_cons_of_mem _ (ih hd)
    | none =>
      rw [hd] at h
      by_cases hk : k0 = k
      · subst hk
        simp [keys]
      · rw [if_neg hk] at h
        cases h

/-! ### Helper lemmas: substrings of the diagnostic messages -/

theorem infix_ext_right {β : Type} {c L M : List β} (h : c <:+: L) : c <:+: L ++ M := by
  obtain ⟨s, t, rfl⟩ := h
  exact ⟨s, t ++ M, by simp⟩

theorem infix_ext_left {β : Type} {c L M : List β} (h : c <:+: M) : c <:+: L ++ M := by
  obtain ⟨s, t, rfl⟩ := h
  exact ⟨L ++ s, t, by simp⟩

theorem infix_pyReprAux (c : List Char) (l : List (List Char)) (hmem : c ∈ l) :
    c <:+: (pyReprAux l).data := by
  induction l with
  | nil => simp at hmem
  | cons s rest ih =>
    cases rest with
    | nil =>
      have hc : c = s := by simpa using hmem
      subst hc
      rw [pyReprAux]
      simp only [String.data_append]
      exact ⟨(String.singleton quoteChar).data, (String.singleton quoteChar).data, by simp⟩
    | cons t rest2 =>
      rw [pyReprAux]
      rcases List.mem_cons.mp hmem with he | hm
      · subst he
        simp only [String.data_append]
        apply infix_ext_right
        apply infix_ext_right
        exact ⟨(String.singleton quoteChar).data, (String.singleton quoteChar).data, by simp⟩
      · simp only [String.data_append]
        exact infix_ext_left (ih hm)

theorem infix_unknownMsg {c : List Char} {sufs : List (List Char)} (h : c ∈ sufs) :
    c <:+: (unknownMsg sufs).data := by
  have h1 : c <:+: (pyReprAux sufs).data := infix_pyReprAux c sufs h
  simp only [unknownMsg, pyReprList, String.data_append]
  exact infix_ext_right (infix_ext_left (infix_ext_right (infix_ext_left h1)))

/-! ### Claim theorems -/

/-- C1: `read_raw` tries candidate suffixes from the longest supported length
down to length 1 and dispatches the first one present in the merged registry;
so when a length-`k` candidate is registered and no longer tried candidate is,
it resolves to that longer (more specific) suffix and invokes exactly the
handler registered for it. -/
theorem read_raw_longest_match {α : Type} (sup sug : List (String × Handler))
    (fname : String) (args : List α) (kwargs : List (String × α)) (k : Nat) (h : Handler)
    (hk : k ∈ countdown (maxsuffixes sup))
    (hfound : dlookup (sup ++ sug) (extCandidate (pySuffixes fname.data) k) = some h)
    (habove : ∀ j ∈ countdown (maxsuffixes sup), k < j →
      dlookup (sup ++ sug) (extCandidate (pySuffixes fname.data) j) = none) :
    resolveSuffix sup sug fname = some (extCandidate (pySuffixes fname.data) k, h)
    ∧ read_raw_gen sup sug fname args kwargs = ReadResult.call h fname args kwargs := by
  have hres : resolveSuffix sup sug fname =
      some (extCandidate (pySuffixes fname.data) k, h) := by
    rw [resolveSuffix]
    exact dispatchLoop_finds (maxsuffixes sup) hk hfound habove
  exact ⟨hres, by simp only [read_raw_gen, hres]⟩

/-- C1 witness: with both the compound `.fif.gz` and its shorter tail `.gz`
registered, `data.fif.gz` resolves to the compound suffix and its handler. -/
theorem read_raw_longest_match_witness :
    resolveSuffix [(".fif.gz", Handler.reader "fifgz"), (".gz", Handler.reader "gz")] []
        "data.fif.gz" =
      some (".fif.gz", Handler.reader "fifgz") :=
  (read_raw_longest_match [(".fif.gz", Handler.reader "fifgz"), (".gz", Handler.reader "gz")]
    [] "data.fif.gz" ([] : List Unit) [] 2 (Handler.reader "fifgz")
    (by decide) (by decide) (by decide)).1

/-- C2: the merged registry never shadows a `supported` entry: any key bound
in `supported` keeps its `supported` handler in `readers` (the two
sub-registries are key-disjoint, so the suggested-last merge order cannot
overwrite a supported binding). -/
theorem readers_supported_wins (hp : Bool) (k : String) (h : Handler)
    (hsup : dlookup (supported hp) k = some h) :
    dlookup (readers hp) k = some h := by
  have hk : k ∈ keys (supported hp) := mem_keys_of_dlookup hsup
  have hall : ((keys (supported hp)).all (fun s => (dlookup suggested s).isNone)) = true := by
    cases hp <;> decide
  have hnone : dlookup suggested k = none := by
    have := List.all_eq_true.mp hall k hk
    simpa [Option.isNone_iff_eq_none] using this
  rw [readers, dlookup_append_none hnone]
  exact hsup

/-- C2 witness: the `.edf` entry of `supported` is the one `readers` serves. -/
theorem readers_supported_wins_witness :
    dlookup (readers true) ".edf" = some (Handler.reader "mne.io.read_raw_edf") :=
  readers_supported_wins true ".edf" (Handler.reader "mne.io.read_raw_edf") (by decide)

/-- C3: the resolution bound `maxsuffixes` is computed from `sup` alone while
candidate lookups hit the union `sup ++ sug` (this is how `resolveSuffix` is
written); hence for a file whose full (lower-cased) suffix chain is registered
but longer than the bound, and none of whose shorter tails is registered, the
chain is never tried and `read_raw` raises the unknown-file-type error. -/
theorem maxsuffixes_asymmetry_unknown {α : Type} (sup sug : List (String × Handler))
    (fname : String) (args : List α) (kwargs : List (String × α))
    (_hlong : dlookup (sup ++ sug)
      (String.mk (pyLower (List.flatten (pySuffixes fname.data)))) ≠ none)
    (_hbound : maxsuffixes sup < (pySuffixes fname.data).length)
    (hnone : ∀ j ∈ countdown (maxsuffixes sup),
      dlookup (sup ++ sug) (extCandidate (pySuffixes fname.data) j) = none) :
    read_raw_gen sup sug fname args kwargs =
      ReadResult.error (unknownMsg (pySuffixes fname.data)) := by
  have hres : resolveSuffix sup sug fname = none := by
    rw [resolveSuffix]
    exact dispatchLoop_eq_none hnone
  simp only [read_raw_gen, hres]

/-- C3 witness: with `supported` bounded at one component and a two-component
suffix only in `suggested`, `data.fif.gz` has its full chain registered yet
fails as an unknown file type. -/
theorem maxsuffixes_asymmetry_unknown_witness :
    read_raw_gen [(".edf", Handler.reader "e")] [(".fif.gz", Handler.unsupported none)]
        "data.fif.gz" ([] : List Unit) [] =
      ReadResult.error (unknownMsg (pySuffixes "data.fif.gz".data)) :=
  maxsuffixes_asymmetry_unknown [(".edf", Handler.reader "e")]
    [(".fif.gz", Handler.unsupported none)] "data.fif.gz" ([] : List Unit) []
    (by decide) (by decide) (by decide)

/-- C5: when no candidate of any tried length is in the registry (file names
with no suffix components included), `read_raw` raises the unknown-file-type
`ValueError`, whose message lists every suffix component that was
inspected. -/
theorem read_raw_unknown_format {α : Type} (hp : Bool) (fname : String)
    (args : List α) (kwargs : List (String × α))
    (hnone : ∀ j ∈ countdown (maxsuffixes (supported hp)),
      dlookup (readers hp) (extCandidate (pySuffixes fname.data) j) = none) :
    read_raw hp fname args kwargs = ReadResult.error (unknownMsg (pySuffixes fname.data))
    ∧ ∀ c ∈ pySuffixes fname.data, c <:+: (unknownMsg (pySuffixes fname.data)).data := by
  constructor
  · have hres : resolveSuffix (supported hp) suggested fname = none := by
      rw [resolveSuffix]
      exact dispatchLoop_eq_none hnone
    rw [read_raw]
    simp only [read_raw_gen, hres]
  · exact fun c hc => infix_unknownMsg hc

/-- C5 witness: `data.unknownext` fails as an unknown file type and the
message names its one inspected suffix component. -/
theorem read_raw_unknown_format_witness :
    read_raw true "data.unknownext" ([] : List Unit) [] =
      ReadResult.error (unknownMsg (pySuffixes "data.unknownext".data))
    ∧ (".unknownext").data <:+: (unknownMsg (pySuffixes "data.unknownext".data)).data :=
  ⟨(read_raw_unknown_format true "data.unknownext" ([] : List Unit) [] (by decide)).1,
   (read_raw_unknown_format true "data.unknownext" ([] : List Unit) [] (by decide)).2
     (".unknownext").data (by decide)⟩

/-- C4 counterexample: `_read_unsupported` declares no positional catch-all,
so a call with one positional option raises a Python `TypeError` from the
signature, not the unsupported-format `ValueError` the claim promises. -/
theorem read_unsupported_positional_counterexample :
    call_read_unsupported (some ".vhdr") "data.vmrk" ["extra"]
        ([] : List (String × String)) =
      Outcome.typeError ("_read_unsupported() takes 1 positional argument but 2 were given")
    ∧ call_read_unsupported (some ".vhdr") "data.vmrk" ["extra"]
        ([] : List (String × String)) ≠
      Outcome.valueError (unsupportedMsg "data.vmrk" (some ".vhdr")) :=
  ⟨by decide, by decide⟩

/-- C4 amended: for every file path and all named options (none colliding with
the `fname` parameter or overriding the stored `suggest` hint),
`_read_unsupported` ignores the named options and, when no positional option
is supplied, always fails with the unsupported-format `ValueError`; any
positional option instead makes the call fail with a signature `TypeError`. -/
theorem read_unsupported_amended {α : Type} [ToString α] (s0 : Option String)
    (fname : String) (args : List α) (kwargs : List (String × α))
    (hf : dlookup kwargs "fname" = none) (hs : dlookup kwargs "suggest" = none) :
    call_read_unsupported s0 fname args kwargs =
      if args.isEmpty then Outcome.valueError (unsupportedMsg fname s0)
      else Outcome.typeError ("_read_unsupported() takes 1 positional argument but " ++
        toString (args.length + 1) ++ " were given") := by
  cases args with
  | nil => simp [call_read_unsupported, hf, hs]
  | cons a l => simp [call_read_unsupported]

/-- C4 amended witness: with a stray named option, a positional-free call
fails with the unsupported-format error. -/
theorem read_unsupported_amended_witness :
    call_read_unsupported (some ".vhdr") "session.vmrk" ([] : List String)
        [("verbose", "True")] =
      Outcome.valueError (unsupportedMsg "session.vmrk" (some ".vhdr")) := by
  have h := read_unsupported_amended (some ".vhdr") "session.vmrk" ([] : List String)
    [("verbose", "True")] (by decide) (by decide)
  simpa using h

/-- C6: whenever resolution lands on a key of the `suggested` sub-registry,
`read_raw` fails with the unsupported-format `ValueError` and the message
recommends the `.vhdr` format that entry carries. -/
theorem read_raw_suggested_unsupported {α : Type} [ToString α] (hp : Bool)
    (fname : String) (ext : String) (h : Handler)
    (hres : resolveSuffix (supported hp) suggested fname = some (ext, h))
    (hsug : dlookup suggested ext = some h) :
    read_raw_run hp fname ([] : List α) [] =
      Outcome.valueError (unsupportedMsg fname (some ".vhdr"))
    ∧ (".vhdr").data <:+: (unsupportedMsg fname (some ".vhdr")).data := by
  have hh : h = Handler.unsupported (some ".vhdr") := by
    have hmem := mem_keys_of_dlookup hsug
    have hcases : ext = ".vmrk" ∨ ext = ".eeg" := by
      simpa [keys, suggested] using hmem
    rcases hcases with rfl | rfl
    · have hU : dlookup suggested ".vmrk" =
          some (Handler.unsupported (some ".vhdr")) := by decide
      rw [hU] at hsug
      exact (Option.some.inj hsug).symm
    · have hU : dlookup suggested ".eeg" =
          some (Handler.unsupported (some ".vhdr")) := by decide
      rw [hU] at hsug
      exact (Option.some.inj hsug).symm
  subst hh
  constructor
  · have hcall : read_raw hp fname ([] : List α) [] =
        ReadResult.call (Handler.unsupported (some ".vhdr")) fname [] [] := by
      rw [read_raw]
      simp only [read_raw_gen, hres]
    unfold read_raw_run
    rw [hcall]
    rfl
  · show (".vhdr").data <:+:
      ((("Unsupported file type (" ++ String.mk (List.flatten (pySuffixes fname.data)) ++
        ").") ++ " Try reading a " ++ ".vhdr" ++ " file instead.")).data
    simp only [String.data_append]
    exact infix_ext_right (infix_ext_left List.infix_rfl)

/-- C6 witness: `session.vmrk` fails as unsupported with the `.vhdr`
recommendation. -/
theorem read_raw_suggested_unsupported_witness :
    read_raw_run true "session.vmrk" ([] : List String) [] =
      Outcome.valueError (unsupportedMsg "session.vmrk" (some ".vhdr")) :=
  (read_raw_suggested_unsupported true "session.vmrk" ".vmrk"
    (Handler.unsupported (some ".vhdr")) (by decide) (by decide)).1

/-- C7: `read_numpy` fails with the shape `ValueError` stating the actual
dimensionality exactly when the loaded array is not two-dimensional, and
returns a Raw object otherwise. -/
theorem read_numpy_shape_check {α : Type} (load : String → PyArray) (fname : String)
    (sfreq : ℚ) (args : List α) (kwargs : List (String × α)) :
    ((load fname).shape.length ≠ 2 →
      read_numpy load fname sfreq args kwargs =
        Except.error ("Array must have two dimensions (got " ++
          toString (load fname).shape.length ++ ")."))
    ∧ ((load fname).shape.length = 2 →
      ∃ r : RawSignal, read_numpy load fname sfreq args kwargs = Except.ok r) := by
  constructor
  · intro hne
    simp only [read_numpy]
    rw [if_pos hne]
  · intro he
    simp only [read_numpy]
    rw [if_neg (by omega)]
    exact ⟨_, rfl⟩

/-- C7 witness: a one-dimensional array fails reporting dimensionality 1. -/
theorem read_numpy_shape_check_witness :
    read_numpy (fun _ => PyArray.mk [1000]) "data.npy" 250 ([] : List Unit) [] =
      Except.error "Array must have two dimensions (got 1)." := by
  rw [(read_numpy_shape_check (fun _ => PyArray.mk [1000]) "data.npy" 250
    ([] : List Unit) []).1 (by decide)]
  rfl

/-- C8: for a two-dimensional array, `read_numpy` returns a Raw object whose
channel count is the array's row count, whose sampling rate is the supplied
parameter, and whose declared source path is the input file name. -/
theorem read_numpy_postcondition {α : Type} (load : String → PyArray) (fname : String)
    (sfreq : ℚ) (args : List α) (kwargs : List (String × α))
    (h2 : (load fname).shape.length = 2) :
    read_numpy load fname sfreq args kwargs =
      Except.ok ⟨(load fname).shape.headD 0, sfreq, [fname]⟩ := by
  simp only [read_numpy]
  rw [if_neg (by omega)]

/-- C8 witness: a 5 by 1000 array at rate 250 yields 5 channels, rate 250 and
the input path. -/
theorem read_numpy_postcondition_witness :
    read_numpy (fun _ => PyArray.mk [5, 1000]) "data.npy" 250 ([] : List Unit) [] =
      Except.ok ⟨5, 250, ["data.npy"]⟩ := by
  have h := read_numpy_postcondition (fun _ => PyArray.mk [5, 1000]) "data.npy" 250
    ([] : List Unit) [] (by decide)
  simpa using h

/-- C10: the suffix in the unsupported-format message is recomputed inside
`_read_unsupported` as the concatenation of ALL suffix components of the file
name — the conclusion does not depend on the matched registry key `ext` at
all — so a name with extra components before the matched suggested suffix
reports the full chain rather than the matched key. -/
theorem unsupported_msg_full_chain {α : Type} [ToString α] (hp : Bool)
    (fname : String) (ext : String) (s : String)
    (hres : resolveSuffix (supported hp) suggested fname =
      some (ext, Handler.unsupported (some s))) :
    read_raw_run hp fname ([] : List α) [] =
      Outcome.valueError (unsupportedMsg fname (some s))
    ∧ unsupportedMsg fname (some s) =
      "Unsupported file type (" ++ String.mk (List.flatten (pySuffixes fname.data)) ++
        ")." ++ " Try reading a " ++ s ++ " file instead." := by
  constructor
  · have hcall : read_raw hp fname ([] : List α) [] =
        ReadResult.call (Handler.unsupported (some s)) fname [] [] := by
      rw [read_raw]
      simp only [read_raw_gen, hres]
    unfold read_raw_run
    rw [hcall]
    rfl
  · rfl

/-- C10 witness: `a.b.vmrk` matches the registry key `.vmrk` but the message
reports the full chain `.b.vmrk`. -/
theorem unsupported_msg_full_chain_witness :
    read_raw_run true "a.b.vmrk" ([] : List String) [] =
      Outcome.valueError (unsupportedMsg "a.b.vmrk" (some ".vhdr"))
    ∧ unsupportedMsg "a.b.vmrk" (some ".vhdr") =
      "Unsupported file type (.b.vmrk). Try reading a .vhdr file instead." :=
  ⟨(unsupported_msg_full_chain true "a.b.vmrk" ".vmrk" ".vhdr" (by decide)).1, by decide⟩

/-! ### Helper lemmas: lower-casing commutes with suffix decomposition -/

theorem toNat_pyCharLower_upper {c : Char} (h : 65 ≤ c.toNat ∧ c.toNat ≤ 90) :
    (pyCharLower c).toNat = c.toNat + 32 := by
  rw [pyCharLower, if_pos h]
  have hv : (c.toNat + 32).isValidChar := Or.inl (by omega)
  rw [Char.ofNat, dif_pos hv]
  rfl

theorem pyCharLower_not_upper {c : Char} (h : ¬(65 ≤ c.toNat ∧ c.toNat ≤ 90)) :
    pyCharLower c = c := by
  rw [pyCharLower, if_neg h]

theorem pyCharLower_eq_low {c t : Char} (ht : t.toNat < 65) :
    pyCharLower c = t ↔ c = t := by
  by_cases h : 65 ≤ c.toNat ∧ c.toNat ≤ 90
  · constructor
    · intro he
      have hn := toNat_pyCharLower_upper h
      rw [he] at hn
      exfalso
      omega
    · intro he
      subst he
      exfalso
      omega
  · rw [pyCharLower_not_upper h]

theorem pyCharLower_idem (c : Char) : pyCharLower (pyCharLower c) = pyCharLower c := by
  by_cases h : 65 ≤ c.toNat ∧ c.toNat ≤ 90
  · have hn := toNat_pyCharLower_upper h
    apply pyCharLower_not_upper
    omega
  · rw [pyCharLower_not_upper h]
    exact pyCharLower_not_upper h

theorem pyLower_idem (l : List Char) : pyLower (pyLower l) = pyLower l := by
  simp only [pyLower, List.map_map]
  apply List.map_congr_left
  intro c _
  exact pyCharLower_idem c

theorem splitOnChar_pyLower {sep : Char} (hsep : sep.toNat < 65) (l : List Char) :
    splitOnChar sep (pyLower l) = (splitOnChar sep l).map pyLower := by
  induction l with
  | nil => rfl
  | cons c l ih =>
    have hcons : pyLower (c :: l) = pyCharLower c :: pyLower l := rfl
    rw [hcons, splitOnChar, ih, splitOnChar]
    cases hsp : splitOnChar sep l with
    | nil => simp [pyLower]
    | cons g gs =>
      simp only [List.map_cons]
      by_cases hc : c = sep
      · rw [if_pos ((pyCharLower_eq_low hsep).mpr hc), if_pos hc]
        simp [pyLower]
      · rw [if_neg (fun he => hc ((pyCharLower_eq_low hsep).mp he)), if_neg hc]
        simp [pyLower]

theorem getLastD_map_pyLower (L : List (List Char)) (d : List Char) :
    (L.map pyLower).getLastD (pyLower d) = pyLower (L.getLastD d) := by
  induction L generalizing d with
  | nil => rfl
  | cons x L ih =>
    simp only [List.map_cons, List.getLastD_cons]
    exact ih x

theorem pathName_pyLower (l : List Char) :
    pathName (pyLower l) = pyLower (pathName l) := by
  rw [pathName, pathName, splitOnChar_pyLower (by decide) l]
  exact getLastD_map_pyLower (splitOnChar '/' l) []

theorem getLast?_pyLower_eq_dot {n : List Char} :
    (pyLower n).getLast? = some '.' ↔ n.getLast? = some '.' := by
  rw [pyLower, List.getLast?_map]
  cases hl : n.getLast? with
  | none => simp
  | some c =>
    simp only [Option.map_some', Option.some.injEq]
    exact @pyCharLower_eq_low c '.' (by decide)

theorem dropWhile_dot_pyLower (n : List Char) :
    (pyLower n).dropWhile (fun c => c = '.') =
      pyLower (n.dropWhile (fun c => c = '.')) := by
  rw [pyLower, List.dropWhile_map]
  have hp : ((fun c : Char => decide (c = '.')) ∘ pyCharLower) =
      (fun c : Char => decide (c = '.')) := by
    funext c
    simp only [Function.comp_apply, decide_eq_decide]
    exact @pyCharLower_eq_low c '.' (by decide)
  rw [hp]
  rfl

theorem pySuffixes_pyLower (l : List Char) :
    pySuffixes (pyLower l) = (pySuffixes l).map pyLower := by
  rw [pySuffixes, pySuffixes, pathName_pyLower]
  by_cases hc : (pathName l).getLast? = some '.'
  · rw [if_pos hc, if_pos (getLast?_pyLower_eq_dot.mpr hc)]
    rfl
  · rw [if_neg hc, if_neg (fun h => hc (getLast?_pyLower_eq_dot.mp h))]
    rw [dropWhile_dot_pyLower, splitOnChar_pyLower (by decide)]
    rw [← List.map_tail, List.map_map, List.map_map]
    apply List.map_congr_left
    intro s _
    rfl

theorem extCandidate_pyLower (sufs : List (List Char)) (k : Nat) :
    extCandidate (sufs.map pyLower) k = extCandidate sufs k := by
  rw [extCandidate, extCandidate, List.length_map, ← List.map_drop]
  have h1 : (List.map pyLower (sufs.drop (sufs.length - k))).flatten
      = pyLower (sufs.drop (sufs.length - k)).flatten := by
    show (List.map (List.map pyCharLower) (sufs.drop (sufs.length - k))).flatten
        = List.map pyCharLower (sufs.drop (sufs.length - k)).flatten
    exact (List.map_flatten pyCharLower _).symm
  rw [h1, pyLower_idem]

theorem dispatchLoop_pyLower (rdrs : List (String × Handler)) (sufs : List (List Char))
    (ks : List Nat) :
    dispatchLoop rdrs (sufs.map pyLower) ks = dispatchLoop rdrs sufs ks := by
  induction ks with
  | nil => rfl
  | cons k ks ih =>
    rw [dispatchLoop, dispatchLoop, extCandidate_pyLower, ih]

/-- C9: suffix matching is case-insensitive — every file name resolves to the
same registry key and handler as its lower-cased form, for any registries,
because each candidate is lower-cased before lookup. -/
theorem resolve_case_insensitive (sup sug : List (String × Handler)) (fname : String) :
    resolveSuffix sup sug (String.mk (pyLower fname.data)) =
      resolveSuffix sup sug fname := by
  rw [resolveSuffix, resolveSuffix]
  have hd : (String.mk (pyLower fname.data)).data = pyLower fname.data := rfl
  rw [hd, pySuffixes_pyLower, dispatchLoop_pyLower]

/-- Concrete instance of case-insensitive resolution on the module's own
registry: `Data.EDF` and `data.edf` resolve identically. -/
theorem data_edf_resolves_like_lowercase :
    resolveSuffix (supported true) suggested "Data.EDF" =
      resolveSuffix (supported true) suggested "data.edf" := by decide

end Mnelab
